import Mathlib

/-!
Verification of the graph-draft WebGPU renderer: viewport transforms,
edge-curve geometry, hit-testing, bounds aggregation, per-frame vertex
generation, dynamic vertex-buffer growth, and the asynchronous
initialization state machine. Numbers are modelled as exact rationals.
-/

namespace GraphDraft

def FLOATS_PER_VERTEX : Nat := 6

def BYTES_PER_FLOAT : Nat := 4

def STRIDE_BYTES : Nat := FLOATS_PER_VERTEX * BYTES_PER_FLOAT

def EDGE_SEGMENTS : Nat := 28

@[ext]
structure Point where
  x : ℚ
  y : ℚ
  deriving DecidableEq, Repr

@[ext]
structure Viewport where
  offsetX : ℚ
  offsetY : ℚ
  zoom : ℚ
  deriving DecidableEq, Repr

@[ext]
structure Node where
  id : String
  position : Point
  width : ℚ
  height : ℚ
  deriving DecidableEq, Repr

@[ext]
structure Edge where
  source : String
  target : String
  deriving DecidableEq, Repr

@[ext]
structure EdgeCurve where
  sx : ℚ
  sy : ℚ
  x1 : ℚ
  y1 : ℚ
  x2 : ℚ
  y2 : ℚ
  tx : ℚ
  ty : ℚ
  deriving DecidableEq, Repr

@[ext]
structure NodeBounds where
  centerX : ℚ
  centerY : ℚ
  height : ℚ
  maxX : ℚ
  maxY : ℚ
  minX : ℚ
  minY : ℚ
  width : ℚ
  deriving DecidableEq, Repr

/-- Builds the id-to-node lookup of `createNodeMap`: a JS `Map` populated by
`forEach`/`set`, so a later duplicate id overwrites an earlier one. -/
def createNodeMap (nodes : List Node) : String → Option Node :=
  nodes.foldl (fun m node => fun key => if key = node.id then some node else m key)
    (fun _ => none)

/-- `getEdgeCurve` from the source: anchors at the rectangle centers, control
points offset horizontally by `k = 0.35` of the horizontal span. -/
def getEdgeCurve (sourceNode targetNode : Node) : EdgeCurve :=
  let sx := sourceNode.position.x + sourceNode.width / 2
  let sy := sourceNode.position.y + sourceNode.height / 2
  let tx := targetNode.position.x + targetNode.width / 2
  let ty := targetNode.position.y + targetNode.height / 2
  let dx := tx - sx
  let k : ℚ := 0.35
  { sx := sx, sy := sy, x1 := sx + dx * k, y1 := sy, x2 := tx - dx * k, y2 := ty,
    tx := tx, ty := ty }

/-- The edge curve as the specification words it: `x1 = sx + k·dx`, `y1 = sy`,
`x2 = tx − k·dx`, `y2 = ty` with `dx = tx − sx` and `k = 0.35`, anchored at
each node's rectangle center. -/
def edgeCurveSpec (sourceNode targetNode : Node) : EdgeCurve :=
  let sx := sourceNode.position.x + sourceNode.width / 2
  let sy := sourceNode.position.y + sourceNode.height / 2
  let tx := targetNode.position.x + targetNode.width / 2
  let ty := targetNode.position.y + targetNode.height / 2
  { sx := sx, sy := sy, x1 := sx + 0.35 * (tx - sx), y1 := sy,
    x2 := tx - 0.35 * (tx - sx), y2 := ty, tx := tx, ty := ty }

/-- `cubicBezierPoint` from the source, with the explicit power products. -/
def cubicBezierPoint (t : ℚ) (curve : EdgeCurve) : Point :=
  let omt := 1 - t
  let omt2 := omt * omt
  let omt3 := omt2 * omt
  let t2 := t * t
  let t3 := t2 * t
  { x := omt3 * curve.sx + 3 * omt2 * t * curve.x1 + 3 * omt * t2 * curve.x2 + t3 * curve.tx,
    y := omt3 * curve.sy + 3 * omt2 * t * curve.y1 + 3 * omt * t2 * curve.y2 + t3 * curve.ty }

/-- The cubic Bernstein form of the specification, x coordinate. -/
def bernsteinX (t : ℚ) (curve : EdgeCurve) : ℚ :=
  (1 - t) ^ 3 * curve.sx + 3 * (1 - t) ^ 2 * t * curve.x1 +
    3 * (1 - t) * t ^ 2 * curve.x2 + t ^ 3 * curve.tx

/-- The cubic Bernstein form of the specification, y coordinate. -/
def bernsteinY (t : ℚ) (curve : EdgeCurve) : ℚ :=
  (1 - t) ^ 3 * curve.sy + 3 * (1 - t) ^ 2 * t * curve.y1 +
    3 * (1 - t) * t ^ 2 * curve.y2 + t ^ 3 * curve.ty

/-- C6: getEdgeCurve anchors the curve at the two rectangle centers and
produces exactly the control points the spec formula gives, and on a source
with center `(0,0)` and a target with center `(100,0)` it yields
`x1 = 35, y1 = 0, x2 = 65, y2 = 0, tx = 100, ty = 0`. -/
theorem getEdgeCurve_matches_spec :
    (∀ s t : Node, getEdgeCurve s t = edgeCurveSpec s t) ∧
    getEdgeCurve ⟨"a", ⟨0, 0⟩, 0, 0⟩ ⟨"b", ⟨100, 0⟩, 0, 0⟩ =
      ⟨0, 0, 35, 0, 65, 0, 100, 0⟩ := by
  constructor
  · intro s t
    ext <;> simp only [getEdgeCurve, edgeCurveSpec] <;> ring
  · ext <;> simp only [getEdgeCurve] <;> norm_num

/-- C7: for `t ∈ [0,1]`, cubicBezierPoint agrees with the Bernstein
polynomial in each coordinate, and the endpoints are exact for any curve. -/
theorem cubicBezierPoint_bernstein (t : ℚ) (curve : EdgeCurve)
    (h0 : 0 ≤ t) (h1 : t ≤ 1) :
    cubicBezierPoint t curve = ⟨bernsteinX t curve, bernsteinY t curve⟩ ∧
    cubicBezierPoint 0 curve = ⟨curve.sx, curve.sy⟩ ∧
    cubicBezierPoint 1 curve = ⟨curve.tx, curve.ty⟩ := by
  refine ⟨?_, ?_, ?_⟩ <;>
    · ext <;> simp only [cubicBezierPoint, bernsteinX, bernsteinY] <;> ring

/-- Witness for C7 at `t = 1/2` on a concrete curve. -/
theorem cubicBezierPoint_bernstein_witness :
    (0 : ℚ) ≤ 1 / 2 ∧ (1 / 2 : ℚ) ≤ 1 ∧
    (cubicBezierPoint (1 / 2) ⟨0, 0, 35, 0, 65, 0, 100, 0⟩ =
        ⟨bernsteinX (1 / 2) ⟨0, 0, 35, 0, 65, 0, 100, 0⟩,
         bernsteinY (1 / 2) ⟨0, 0, 35, 0, 65, 0, 100, 0⟩⟩ ∧
      cubicBezierPoint 0 ⟨0, 0, 35, 0, 65, 0, 100, 0⟩ = ⟨0, 0⟩ ∧
      cubicBezierPoint 1 ⟨0, 0, 35, 0, 65, 0, 100, 0⟩ = ⟨100, 0⟩) :=
  ⟨by norm_num, by norm_num,
    cubicBezierPoint_bernstein (1 / 2) ⟨0, 0, 35, 0, 65, 0, 100, 0⟩
      (by norm_num) (by norm_num)⟩

/-- `isPointInsideNode` from the source: axis-aligned rectangle containment,
all four comparisons inclusive. -/
def isPointInsideNode (worldX worldY : ℚ) (node : Node) : Bool :=
  decide (node.position.x ≤ worldX) && decide (worldX ≤ node.position.x + node.width) &&
    decide (node.position.y ≤ worldY) && decide (worldY ≤ node.position.y + node.height)

/-- `getTopNodeAtPoint` from the source: the loop runs from the last index
down to the first and returns the first containing node it meets, which is
the reverse-order first match. -/
def getTopNodeAtPoint (nodes : List Node) (worldX worldY : ℚ) : Option Node :=
  nodes.reverse.find? (fun node => isPointInsideNode worldX worldY node)

theorem find?_eq_head?_filter {α : Type} (p : α → Bool) (l : List α) :
    l.find? p = (l.filter p).head? := by
  induction l with
  | nil => rfl
  | cons a l ih =>
    cases hp : p a with
    | true => rw [List.find?_cons_of_pos l hp, List.filter_cons_of_pos hp]; rfl
    | false =>
      rw [List.find?_cons_of_neg l (by simp [hp]), List.filter_cons_of_neg (by simp [hp]), ih]

theorem reverse_find?_eq_getLast?_filter {α : Type} (p : α → Bool) (l : List α) :
    l.reverse.find? p = (l.filter p).getLast? := by
  rw [find?_eq_head?_filter, List.filter_reverse, List.head?_reverse]

/-- C8: getTopNodeAtPoint returns the last node in draw order whose rectangle
contains the point (inclusive of the boundary), none when no node contains
the point; for nodes `A` then `B` both containing `(5,5)` it returns `B`. -/
theorem getTopNodeAtPoint_spec (nodes : List Node) (x y : ℚ) :
    getTopNodeAtPoint nodes x y =
      (nodes.filter (fun node => isPointInsideNode x y node)).getLast? ∧
    (getTopNodeAtPoint nodes x y = none ↔
      ∀ n ∈ nodes, isPointInsideNode x y n = false) ∧
    isPointInsideNode 10 10 ⟨"edge", ⟨0, 0⟩, 10, 10⟩ = true ∧
    getTopNodeAtPoint [⟨"A", ⟨0, 0⟩, 10, 10⟩, ⟨"B", ⟨2, 2⟩, 10, 10⟩] 5 5 =
      some ⟨"B", ⟨2, 2⟩, 10, 10⟩ := by
  have hmain : getTopNodeAtPoint nodes x y =
      (nodes.filter (fun node => isPointInsideNode x y node)).getLast? :=
    reverse_find?_eq_getLast?_filter _ nodes
  refine ⟨hmain, ?_, ?_, ?_⟩
  · rw [hmain, List.getLast?_eq_none_iff, List.filter_eq_nil_iff]
    constructor
    · intro h n hn
      simpa using h n hn
    · intro h n hn
      simp [h n hn]
  · simp only [isPointInsideNode, Bool.and_eq_true, decide_eq_true_eq]
    norm_num
  · have hB : isPointInsideNode 5 5 (⟨"B", ⟨2, 2⟩, 10, 10⟩ : Node) = true := by
      simp only [isPointInsideNode, Bool.and_eq_true, decide_eq_true_eq]
      norm_num
    rw [getTopNodeAtPoint, show ([⟨"A", ⟨0, 0⟩, 10, 10⟩, ⟨"B", ⟨2, 2⟩, 10, 10⟩] :
        List Node).reverse = [⟨"B", ⟨2, 2⟩, 10, 10⟩, ⟨"A", ⟨0, 0⟩, 10, 10⟩] from by simp,
      List.find?_cons_of_pos _ hB]

/-- The accumulator step of the min/max fold inside `getNodesBounds`. -/
def boundsStep (a : ℚ × ℚ × ℚ × ℚ) (node : Node) : ℚ × ℚ × ℚ × ℚ :=
  (min a.1 node.position.x, min a.2.1 node.position.y,
    max a.2.2.1 (node.position.x + node.width),
    max a.2.2.2 (node.position.y + node.height))

/-- The initial accumulator of `getNodesBounds`: the first node's corners. -/
def initCorners (first : Node) : ℚ × ℚ × ℚ × ℚ :=
  (first.position.x, first.position.y,
    first.position.x + first.width, first.position.y + first.height)

/-- The tail of `getNodesBounds`: width and height from the final bounds and
the center as `min + extent / 2`. -/
def boundsOf (acc : ℚ × ℚ × ℚ × ℚ) : NodeBounds :=
  { centerX := acc.1 + (acc.2.2.1 - acc.1) / 2
    centerY := acc.2.1 + (acc.2.2.2 - acc.2.1) / 2
    height := acc.2.2.2 - acc.2.1
    maxX := acc.2.2.1
    maxY := acc.2.2.2
    minX := acc.1
    minY := acc.2.1
    width := acc.2.2.1 - acc.1 }

/-- `getNodesBounds` from the source: undefined on the empty list, otherwise
a running min/max over every rectangle's corners starting from the first
node, with width/height and center derived from the final bounds. -/
def getNodesBounds : List Node → Option NodeBounds
  | [] => none
  | first :: rest => some (boundsOf (rest.foldl boundsStep (initCorners first)))

theorem foldl_min_le_init (l : List ℚ) (a : ℚ) : l.foldl min a ≤ a := by
  induction l generalizing a with
  | nil => exact le_refl a
  | cons b l ih => exact le_trans (ih (min a b)) (min_le_left a b)

theorem foldl_min_le_mem (l : List ℚ) (a : ℚ) : ∀ x ∈ l, l.foldl min a ≤ x := by
  induction l generalizing a with
  | nil => intro x hx; cases hx
  | cons b l ih =>
    intro x hx
    rcases List.mem_cons.mp hx with h | h
    · subst h
      exact le_trans (foldl_min_le_init l (min a x)) (min_le_right a x)
    · exact ih (min a b) x h

theorem foldl_min_attained (l : List ℚ) (a : ℚ) :
    l.foldl min a = a ∨ l.foldl min a ∈ l := by
  induction l generalizing a with
  | nil => exact Or.inl rfl
  | cons b l ih =>
    rcases ih (min a b) with h | h
    · rcases min_choice a b with hm | hm
      · exact Or.inl (by rw [List.foldl_cons, h, hm])
      · exact Or.inr (by rw [List.foldl_cons, h, hm]; exact List.mem_cons_self b l)
    · exact Or.inr (List.mem_cons_of_mem b h)

theorem init_le_foldl_max (l : List ℚ) (a : ℚ) : a ≤ l.foldl max a := by
  induction l generalizing a with
  | nil => exact le_refl a
  | cons b l ih => exact le_trans (le_max_left a b) (ih (max a b))

theorem mem_le_foldl_max (l : List ℚ) (a : ℚ) : ∀ x ∈ l, x ≤ l.foldl max a := by
  induction l generalizing a with
  | nil => intro x hx; cases hx
  | cons b l ih =>
    intro x hx
    rcases List.mem_cons.mp hx with h | h
    · subst h
      exact le_trans (le_max_right a x) (init_le_foldl_max l (max a x))
    · exact ih (max a b) x h

theorem foldl_max_attained (l : List ℚ) (a : ℚ) :
    l.foldl max a = a ∨ l.foldl max a ∈ l := by
  induction l generalizing a with
  | nil => exact Or.inl rfl
  | cons b l ih =>
    rcases ih (max a b) with h | h
    · rcases max_choice a b with hm | hm
      · exact Or.inl (by rw [List.foldl_cons, h, hm])
      · exact Or.inr (by rw [List.foldl_cons, h, hm]; exact List.mem_cons_self b l)
    · exact Or.inr (List.mem_cons_of_mem b h)

theorem foldl_boundsStep_components (l : List Node) (a : ℚ × ℚ × ℚ × ℚ) :
    (l.foldl boundsStep a).1 = (l.map fun n => n.position.x).foldl min a.1 ∧
    (l.foldl boundsStep a).2.1 = (l.map fun n => n.position.y).foldl min a.2.1 ∧
    (l.foldl boundsStep a).2.2.1 =
      (l.map fun n => n.position.x + n.width).foldl max a.2.2.1 ∧
    (l.foldl boundsStep a).2.2.2 =
      (l.map fun n => n.position.y + n.height).foldl max a.2.2.2 := by
  induction l generalizing a with
  | nil => exact ⟨rfl, rfl, rfl, rfl⟩
  | cons n l ih => simpa [boundsStep] using ih (boundsStep a n)

theorem boundsFold_le (first : Node) (rest : List Node) :
    ∀ n ∈ first :: rest,
      (rest.foldl boundsStep (initCorners first)).1 ≤ n.position.x ∧
      (rest.foldl boundsStep (initCorners first)).2.1 ≤ n.position.y ∧
      n.position.x + n.width ≤ (rest.foldl boundsStep (initCorners first)).2.2.1 ∧
      n.position.y + n.height ≤ (rest.foldl boundsStep (initCorners first)).2.2.2 := by
  obtain ⟨h1, h2, h3, h4⟩ := foldl_boundsStep_components rest (initCorners first)
  intro n hn
  rcases List.mem_cons.mp hn with h | h
  · subst h
    refine ⟨?_, ?_, ?_, ?_⟩
    · rw [h1]; exact foldl_min_le_init _ _
    · rw [h2]; exact foldl_min_le_init _ _
    · rw [h3]; exact init_le_foldl_max _ _
    · rw [h4]; exact init_le_foldl_max _ _
  · refine ⟨?_, ?_, ?_, ?_⟩
    · rw [h1]; exact foldl_min_le_mem _ _ _ (List.mem_map_of_mem _ h)
    · rw [h2]; exact foldl_min_le_mem _ _ _ (List.mem_map_of_mem _ h)
    · rw [h3]; exact mem_le_foldl_max _ _ _ (List.mem_map_of_mem _ h)
    · rw [h4]; exact mem_le_foldl_max _ _ _ (List.mem_map_of_mem _ h)

theorem boundsFold_attained (first : Node) (rest : List Node) :
    (∃ n ∈ first :: rest,
      (rest.foldl boundsStep (initCorners first)).1 = n.position.x) ∧
    (∃ n ∈ first :: rest,
      (rest.foldl boundsStep (initCorners first)).2.1 = n.position.y) ∧
    (∃ n ∈ first :: rest,
      (rest.foldl boundsStep (initCorners first)).2.2.1 = n.position.x + n.width) ∧
    (∃ n ∈ first :: rest,
      (rest.foldl boundsStep (initCorners first)).2.2.2 = n.position.y + n.height) := by
  obtain ⟨h1, h2, h3, h4⟩ := foldl_boundsStep_components rest (initCorners first)
  refine ⟨?_, ?_, ?_, ?_⟩
  · rw [h1]
    rcases foldl_min_attained (rest.map fun n => n.position.x) (initCorners first).1
        with h | h
    · exact ⟨first, List.mem_cons_self _ _, h⟩
    · obtain ⟨n, hn, hfn⟩ := List.mem_map.mp h
      exact ⟨n, List.mem_cons_of_mem _ hn, hfn.symm⟩
  · rw [h2]
    rcases foldl_min_attained (rest.map fun n => n.position.y) (initCorners first).2.1
        with h | h
    · exact ⟨first, List.mem_cons_self _ _, h⟩
    · obtain ⟨n, hn, hfn⟩ := List.mem_map.mp h
      exact ⟨n, List.mem_cons_of_mem _ hn, hfn.symm⟩
  · rw [h3]
    rcases foldl_max_attained (rest.map fun n => n.position.x + n.width)
        (initCorners first).2.2.1 with h | h
    · exact ⟨first, List.mem_cons_self _ _, h⟩
    · obtain ⟨n, hn, hfn⟩ := List.mem_map.mp h
      exact ⟨n, List.mem_cons_of_mem _ hn, hfn.symm⟩
  · rw [h4]
    rcases foldl_max_attained (rest.map fun n => n.position.y + n.height)
        (initCorners first).2.2.2 with h | h
    · exact ⟨first, List.mem_cons_self _ _, h⟩
    · obtain ⟨n, hn, hfn⟩ := List.mem_map.mp h
      exact ⟨n, List.mem_cons_of_mem _ hn, hfn.symm⟩

/-- C9: getNodesBounds is undefined exactly on the empty list; on a
non-empty list its bounds are the min/max over every node rectangle's
corners (attained and bounding), width and height are derived from the
bounds, the center is the bounds midpoint, and the single-node example
evaluates to the documented record. -/
theorem getNodesBounds_spec (nodes : List Node) :
    (getNodesBounds nodes = none ↔ nodes = []) ∧
    (∀ b, getNodesBounds nodes = some b →
      (∀ n ∈ nodes, b.minX ≤ n.position.x ∧ b.minY ≤ n.position.y ∧
        n.position.x + n.width ≤ b.maxX ∧ n.position.y + n.height ≤ b.maxY) ∧
      (∃ n ∈ nodes, b.minX = n.position.x) ∧
      (∃ n ∈ nodes, b.minY = n.position.y) ∧
      (∃ n ∈ nodes, b.maxX = n.position.x + n.width) ∧
      (∃ n ∈ nodes, b.maxY = n.position.y + n.height) ∧
      b.width = b.maxX - b.minX ∧ b.height = b.maxY - b.minY ∧
      b.centerX = (b.minX + b.maxX) / 2 ∧ b.centerY = (b.minY + b.maxY) / 2) ∧
    getNodesBounds [⟨"n", ⟨0, 0⟩, 10, 20⟩] = some ⟨5, 10, 20, 10, 20, 0, 0, 10⟩ := by
  refine ⟨?_, ?_, ?_⟩
  · cases nodes with
    | nil => simp [getNodesBounds]
    | cons first rest => simp [getNodesBounds]
  · intro b hb
    cases nodes with
    | nil => simp [getNodesBounds] at hb
    | cons first rest =>
      have hb2 : boundsOf (rest.foldl boundsStep (initCorners first)) = b := by
        simpa [getNodesBounds] using hb
      subst hb2
      refine ⟨?_, ?_, ?_, ?_, ?_, ?_, ?_, ?_, ?_⟩
      · intro n hn
        simpa [boundsOf] using boundsFold_le first rest n hn
      · simpa [boundsOf] using (boundsFold_attained first rest).1
      · simpa [boundsOf] using (boundsFold_attained first rest).2.1
      · simpa [boundsOf] using (boundsFold_attained first rest).2.2.1
      · simpa [boundsOf] using (boundsFold_attained first rest).2.2.2
      · simp [boundsOf]
      · simp [boundsOf]
      · simp only [boundsOf]; ring
      · simp only [boundsOf]; ring
  · simp only [getNodesBounds, List.foldl_nil, Option.some.injEq]
    ext <;> simp only [boundsOf, initCorners] <;> norm_num

/-- Modelled from the spec: `worldPointToBoard` lives in the coordinates
module, which is absent from the repository snapshot (only its import
appears); the spec gives `x' = x*zoom + offsetX`, `y' = y*zoom + offsetY`. -/
def worldPointToBoard (p : Point) (v : Viewport) : Point :=
  ⟨p.x * v.zoom + v.offsetX, p.y * v.zoom + v.offsetY⟩

/-- Modelled from the spec: `boardPointToWorld` from the same absent
coordinates module, the exact inverse `x = (x' - offsetX)/zoom`,
`y = (y' - offsetY)/zoom`. -/
def boardPointToWorld (p : Point) (v : Viewport) : Point :=
  ⟨(p.x - v.offsetX) / v.zoom, (p.y - v.offsetY) / v.zoom⟩

/-- C2: for every point and every viewport with positive zoom, converting
world to board and back returns the original point exactly. -/
theorem boardToWorld_worldToBoard (p : Point) (v : Viewport) (h : 0 < v.zoom) :
    boardPointToWorld (worldPointToBoard p v) v = p := by
  have hz : v.zoom ≠ 0 := ne_of_gt h
  ext <;> simp only [worldPointToBoard, boardPointToWorld] <;> field_simp

/-- Witness for C2 at the point `(3,4)` and viewport offset `(1,-2)`,
zoom `2`. -/
theorem boardToWorld_worldToBoard_witness :
    (0 : ℚ) < (⟨1, -2, 2⟩ : Viewport).zoom ∧
    boardPointToWorld (worldPointToBoard ⟨3, 4⟩ ⟨1, -2, 2⟩) ⟨1, -2, 2⟩ = ⟨3, 4⟩ :=
  ⟨by norm_num, boardToWorld_worldToBoard ⟨3, 4⟩ ⟨1, -2, 2⟩ (by norm_num)⟩

/-- The node fill color of the source as exact rationals. -/
def NODE_COLOR : ℚ × ℚ × ℚ × ℚ := (0.14, 0.21, 0.31, 0.94)

/-- The edge stroke color of the source as exact rationals. -/
def EDGE_COLOR : ℚ × ℚ × ℚ × ℚ := (0.33, 0.89, 0.84, 0.95)

/-- `appendVertex` from the source: pushes 2 position floats and 4 color
floats, `FLOATS_PER_VERTEX = 6` numbers per vertex. -/
def appendVertex (vertices : List ℚ) (x y : ℚ) (color : ℚ × ℚ × ℚ × ℚ) : List ℚ :=
  vertices ++ [x, y, color.1, color.2.1, color.2.2.1, color.2.2.2]

/-- The index sequence `i = 1 .. EDGE_SEGMENTS` of the per-edge loop. -/
def edgeSampleIndices : List Nat := (List.range EDGE_SEGMENTS).map (· + 1)

/-- The inner per-edge loop of `draw`: carries the previous sample and
appends one line-list segment (two vertices) per index. -/
def edgeLoop (curve : EdgeCurve) (v : Viewport) (dpr : ℚ) :
    Point → List Nat → List ℚ → List ℚ
  | _, [], acc => acc
  | previous, i :: rest, acc =>
    let t : ℚ := (i : ℚ) / (EDGE_SEGMENTS : ℚ)
    let next := cubicBezierPoint t curve
    let p0 := worldPointToBoard previous v
    let p1 := worldPointToBoard next v
    edgeLoop curve v dpr next rest
      (appendVertex (appendVertex acc (p0.x * dpr) (p0.y * dpr) EDGE_COLOR)
        (p1.x * dpr) (p1.y * dpr) EDGE_COLOR)

/-- One resolved edge's contribution to the edge vertex array, starting
from the curve point at `t = 0`. -/
def edgeVerticesFor (curve : EdgeCurve) (v : Viewport) (dpr : ℚ)
    (acc : List ℚ) : List ℚ :=
  edgeLoop curve v dpr (cubicBezierPoint 0 curve) edgeSampleIndices acc

/-- Whether both endpoint ids of an edge resolve in the node map. -/
def resolvedEdge (nodes : List Node) (e : Edge) : Bool :=
  (createNodeMap nodes e.source).isSome && (createNodeMap nodes e.target).isSome

/-- The per-edge body of the `forEach` in `draw`: an edge with an
unresolved endpoint contributes nothing. -/
def edgeStep (sceneNodes : List Node) (v : Viewport) (dpr : ℚ)
    (acc : List ℚ) (edge : Edge) : List ℚ :=
  match createNodeMap sceneNodes edge.source, createNodeMap sceneNodes edge.target with
  | some sourceNode, some targetNode =>
    edgeVerticesFor (getEdgeCurve sourceNode targetNode) v dpr acc
  | _, _ => acc

/-- The edge half of the per-frame scene build in `draw`. -/
def buildEdgeVertices (sceneNodes : List Node) (sceneEdges : List Edge)
    (v : Viewport) (dpr : ℚ) : List ℚ :=
  sceneEdges.foldl (edgeStep sceneNodes v dpr) []

/-- The per-node body of the `forEach` in `draw`: two triangles, six
vertices, from the board-space rectangle. -/
def nodeQuadVertices (node : Node) (v : Viewport) (dpr : ℚ)
    (acc : List ℚ) : List ℚ :=
  let topLeft := worldPointToBoard node.position v
  let x := topLeft.x * dpr
  let y := topLeft.y * dpr
  let width := node.width * v.zoom * dpr
  let height := node.height * v.zoom * dpr
  appendVertex (appendVertex (appendVertex (appendVertex (appendVertex (appendVertex
    acc x y NODE_COLOR) (x + width) y NODE_COLOR) x (y + height) NODE_COLOR)
    (x + width) y NODE_COLOR) (x + width) (y + height) NODE_COLOR)
    x (y + height) NODE_COLOR

/-- The node half of the per-frame scene build in `draw`. -/
def buildNodeVertices (sceneNodes : List Node) (v : Viewport) (dpr : ℚ) : List ℚ :=
  sceneNodes.foldl (fun acc node => nodeQuadVertices node v dpr acc) []

theorem appendVertex_length (vertices : List ℚ) (x y : ℚ) (c : ℚ × ℚ × ℚ × ℚ) :
    (appendVertex vertices x y c).length = vertices.length + FLOATS_PER_VERTEX := by
  simp [appendVertex, FLOATS_PER_VERTEX]

theorem edgeLoop_length (curve : EdgeCurve) (v : Viewport) (dpr : ℚ)
    (idxs : List Nat) :
    ∀ (previous : Point) (acc : List ℚ),
      (edgeLoop curve v dpr previous idxs acc).length =
        acc.length + 2 * FLOATS_PER_VERTEX * idxs.length := by
  induction idxs with
  | nil => intro previous acc; simp [edgeLoop]
  | cons i rest ih =>
    intro previous acc
    simp only [edgeLoop, List.length_cons]
    rw [ih]
    simp only [appendVertex_length, FLOATS_PER_VERTEX]
    omega

theorem edgeSampleIndices_length : edgeSampleIndices.length = EDGE_SEGMENTS := by
  simp [edgeSampleIndices]

theorem foldl_edgeStep_length (sceneNodes : List Node) (v : Viewport) (dpr : ℚ) :
    ∀ (sceneEdges : List Edge) (acc : List ℚ),
      (sceneEdges.foldl (edgeStep sceneNodes v dpr) acc).length =
        acc.length + 2 * EDGE_SEGMENTS * FLOATS_PER_VERTEX *
          (sceneEdges.countP fun e => resolvedEdge sceneNodes e) := by
  intro sceneEdges
  induction sceneEdges with
  | nil => intro acc; simp
  | cons e rest ih =>
    intro acc
    rw [List.foldl_cons, ih, List.countP_cons]
    cases hs : createNodeMap sceneNodes e.source with
    | none =>
      have hre : resolvedEdge sceneNodes e = false := by simp [resolvedEdge, hs]
      simp [edgeStep, hs, hre]
    | some s =>
      cases ht : createNodeMap sceneNodes e.target with
      | none =>
        have hre : resolvedEdge sceneNodes e = false := by simp [resolvedEdge, hs, ht]
        simp [edgeStep, hs, ht, hre]
      | some t =>
        have hre : resolvedEdge sceneNodes e = true := by simp [resolvedEdge, hs, ht]
        have hlen : (edgeVerticesFor (getEdgeCurve s t) v dpr acc).length =
            acc.length + 2 * FLOATS_PER_VERTEX * EDGE_SEGMENTS := by
          rw [edgeVerticesFor, edgeLoop_length, edgeSampleIndices_length]
        simp only [edgeStep, hs, ht, hre, hlen, if_true]
        simp only [EDGE_SEGMENTS, FLOATS_PER_VERTEX]
        omega

theorem nodeQuadVertices_length (node : Node) (v : Viewport) (dpr : ℚ)
    (acc : List ℚ) :
    (nodeQuadVertices node v dpr acc).length = acc.length + 6 * FLOATS_PER_VERTEX := by
  simp only [nodeQuadVertices, appendVertex_length, FLOATS_PER_VERTEX]

theorem foldl_nodeQuad_length (v : Viewport) (dpr : ℚ) :
    ∀ (sceneNodes : List Node) (acc : List ℚ),
      (sceneNodes.foldl (fun acc node => nodeQuadVertices node v dpr acc) acc).length =
        acc.length + 6 * FLOATS_PER_VERTEX * sceneNodes.length := by
  intro sceneNodes
  induction sceneNodes with
  | nil => intro acc; simp
  | cons n rest ih =>
    intro acc
    rw [List.foldl_cons, ih, nodeQuadVertices_length, List.length_cons]
    simp only [FLOATS_PER_VERTEX]
    omega

/-- C1: the per-frame build emits exactly 6 vertices (6 floats each) per
node and exactly `2 × 28 = 56` line-list vertices per edge whose source and
target ids both resolve in the node map; an edge referencing a missing node
id contributes zero vertices, and the build is a total function (no
error). -/
theorem draw_vertex_counts (nodes : List Node) (edges : List Edge)
    (v : Viewport) (dpr : ℚ) :
    (buildNodeVertices nodes v dpr).length = 6 * FLOATS_PER_VERTEX * nodes.length ∧
    (buildEdgeVertices nodes edges v dpr).length =
      2 * EDGE_SEGMENTS * FLOATS_PER_VERTEX *
        (edges.countP fun e => resolvedEdge nodes e) ∧
    (∀ e : Edge, resolvedEdge nodes e = false →
      buildEdgeVertices nodes [e] v dpr = []) := by
  refine ⟨?_, ?_, ?_⟩
  · rw [buildNodeVertices, foldl_nodeQuad_length]
    simp
  · rw [buildEdgeVertices, foldl_edgeStep_length]
    simp
  · intro e hre
    simp only [buildEdgeVertices, List.foldl_cons, List.foldl_nil]
    cases hs : createNodeMap nodes e.source with
    | none => simp [edgeStep, hs]
    | some s =>
      cases ht : createNodeMap nodes e.target with
      | none => simp [edgeStep, hs, ht]
      | some t => simp [resolvedEdge, hs, ht] at hre

/-- Witness for C1 on a two-node, two-edge scene whose second edge
references a missing id. -/
theorem draw_vertex_counts_witness :
    buildEdgeVertices [⟨"a", ⟨0, 0⟩, 4, 4⟩, ⟨"b", ⟨9, 9⟩, 4, 4⟩] [⟨"a", "zz"⟩]
      ⟨0, 0, 1⟩ 1 = [] :=
  (draw_vertex_counts [⟨"a", ⟨0, 0⟩, 4, 4⟩, ⟨"b", ⟨9, 9⟩, 4, 4⟩] [⟨"a", "zz"⟩]
    ⟨0, 0, 1⟩ 1).2.2 ⟨"a", "zz"⟩ (by simp [resolvedEdge, createNodeMap])

/-- The GPU device's buffer allocator, modelled as a fresh-handle counter. -/
structure GpuCtx where
  nextHandle : Nat
  deriving DecidableEq, Repr

/-- Observable GPU buffer effects: destroy, create, queue write. -/
inductive GpuEvent where
  | release (handle : Nat)
  | alloc (handle : Nat) (sizeBytes : Nat)
  | write (handle : Nat) (sizeBytes : Nat)
  deriving DecidableEq, Repr

/-- `DynamicVertexBuffer` bookkeeping from the source: current handle or
null, byte capacity, and the vertex count `data.length / 6`. -/
structure DynamicVertexBuffer where
  buffer : Option Nat
  capacityBytes : Nat
  vertexCount : ℚ
  deriving DecidableEq, Repr

/-- `ensureVertexBuffer` from the source: returns early when a buffer
exists and its capacity covers the requirement; otherwise destroys the old
handle and allocates `max(4096, max(required, capacity*2))` bytes. -/
def ensureVertexBuffer (ctx : GpuCtx) (state : DynamicVertexBuffer)
    (requiredBytes : Nat) : GpuCtx × DynamicVertexBuffer × List GpuEvent :=
  if state.buffer.isSome ∧ requiredBytes ≤ state.capacityBytes then (ctx, state, [])
  else
    let releases := match state.buffer with
      | some hd => [GpuEvent.release hd]
      | none => []
    let newCapacity := max 4096 (max requiredBytes (state.capacityBytes * 2))
    (⟨ctx.nextHandle + 1⟩,
      { buffer := some ctx.nextHandle, capacityBytes := newCapacity,
        vertexCount := state.vertexCount },
      releases ++ [GpuEvent.alloc ctx.nextHandle newCapacity])

/-- `uploadVertices` from the source: records the vertex count, returns on
an empty payload, otherwise grows the buffer as needed and queues one write
of the full payload (4 bytes per float). -/
def uploadVertices (ctx : GpuCtx) (state : DynamicVertexBuffer)
    (data : List ℚ) : GpuCtx × DynamicVertexBuffer × List GpuEvent :=
  let state1 := { state with
    vertexCount := (data.length : ℚ) / (FLOATS_PER_VERTEX : ℚ) }
  if data.length = 0 then (ctx, state1, [])
  else
    let requiredBytes := data.length * BYTES_PER_FLOAT
    let out := ensureVertexBuffer ctx state1 requiredBytes
    match out.2.1.buffer with
    | none => out
    | some hd => (out.1, out.2.1, out.2.2 ++ [GpuEvent.write hd requiredBytes])

/-- The per-buffer draw-call guard in `draw`: a draw is issued only when
the vertex count is positive and a buffer handle exists. -/
def drawCallIssued (state : DynamicVertexBuffer) : Bool :=
  decide ((0 : ℚ) < state.vertexCount) && state.buffer.isSome

theorem uploadVertices_nil (ctx : GpuCtx) (state : DynamicVertexBuffer) :
    uploadVertices ctx state [] = (ctx, { state with vertexCount := 0 }, []) := by
  simp [uploadVertices]

theorem ensureVertexBuffer_noop (ctx : GpuCtx) (state : DynamicVertexBuffer)
    (requiredBytes : Nat) (hb : state.buffer.isSome)
    (hfit : requiredBytes ≤ state.capacityBytes) :
    ensureVertexBuffer ctx state requiredBytes = (ctx, state, []) := by
  rw [ensureVertexBuffer, if_pos ⟨hb, hfit⟩]

theorem ensureVertexBuffer_grow (ctx : GpuCtx) (state : DynamicVertexBuffer)
    (requiredBytes : Nat)
    (h : ¬(state.buffer.isSome ∧ requiredBytes ≤ state.capacityBytes)) :
    ensureVertexBuffer ctx state requiredBytes =
      (⟨ctx.nextHandle + 1⟩,
        { buffer := some ctx.nextHandle,
          capacityBytes := max 4096 (max requiredBytes (state.capacityBytes * 2)),
          vertexCount := state.vertexCount },
        (match state.buffer with
          | some hd => [GpuEvent.release hd]
          | none => []) ++
          [GpuEvent.alloc ctx.nextHandle
            (max 4096 (max requiredBytes (state.capacityBytes * 2)))]) := by
  rw [ensureVertexBuffer, if_neg h]

/-- C3: an upload fitting in the current capacity neither reallocates nor
changes the capacity; an upload exceeding the capacity releases the old
handle and allocates exactly `max(4096, max(required, capacity*2))` bytes;
capacity is monotone across uploads and covers the last non-empty payload.
The hypothesis `hinv` is the reachability invariant that a null handle only
coexists with zero capacity (true of the initial state, of every teardown
reset, and preserved by every upload, per the last conjunct). -/
theorem uploadVertices_growth (ctx : GpuCtx) (state : DynamicVertexBuffer)
    (data : List ℚ)
    (hinv : state.buffer = none → state.capacityBytes = 0) :
    (data.length * BYTES_PER_FLOAT ≤ state.capacityBytes →
      (uploadVertices ctx state data).2.1.buffer = state.buffer ∧
      (uploadVertices ctx state data).2.1.capacityBytes = state.capacityBytes ∧
      (∀ ev ∈ (uploadVertices ctx state data).2.2,
        ∃ hd n, ev = GpuEvent.write hd n)) ∧
    (state.capacityBytes < data.length * BYTES_PER_FLOAT →
      (uploadVertices ctx state data).2.1.capacityBytes =
        max 4096 (max (data.length * BYTES_PER_FLOAT) (state.capacityBytes * 2)) ∧
      (uploadVertices ctx state data).2.1.buffer = some ctx.nextHandle ∧
      (∀ hd, state.buffer = some hd →
        GpuEvent.release hd ∈ (uploadVertices ctx state data).2.2) ∧
      GpuEvent.alloc ctx.nextHandle
          ((uploadVertices ctx state data).2.1.capacityBytes) ∈
        (uploadVertices ctx state data).2.2) ∧
    state.capacityBytes ≤ (uploadVertices ctx state data).2.1.capacityBytes ∧
    (data ≠ [] →
      data.length * BYTES_PER_FLOAT ≤
        (uploadVertices ctx state data).2.1.capacityBytes) ∧
    ((uploadVertices ctx state data).2.1.buffer = none →
      (uploadVertices ctx state data).2.1.capacityBytes = 0) := by
  by_cases hd0 : data.length = 0
  · have hdata : data = [] := List.length_eq_zero.mp hd0
    subst hdata
    rw [uploadVertices_nil]
    refine ⟨fun _ => ⟨rfl, rfl, by simp⟩, fun hlt => ?_, le_refl _, ?_, hinv⟩
    · simp [BYTES_PER_FLOAT] at hlt
    · intro hne; exact absurd rfl hne
  · have hreq : 0 < data.length * BYTES_PER_FLOAT := by
      have : 0 < data.length := Nat.pos_of_ne_zero hd0
      simp only [BYTES_PER_FLOAT]; omega
    by_cases hfit : data.length * BYTES_PER_FLOAT ≤ state.capacityBytes
    · -- capacity suffices, so the buffer exists and the upload only writes
      have hcap : 0 < state.capacityBytes := lt_of_lt_of_le hreq hfit
      have hb : state.buffer.isSome := by
        cases hbuf : state.buffer with
        | none => exact absurd (hinv hbuf) (by omega)
        | some hd => rfl
      have hb1 : (⟨state.buffer, state.capacityBytes,
          (data.length : ℚ) / (FLOATS_PER_VERTEX : ℚ)⟩ :
            DynamicVertexBuffer).buffer.isSome := hb
      have hens := ensureVertexBuffer_noop ctx
        ⟨state.buffer, state.capacityBytes,
          (data.length : ℚ) / (FLOATS_PER_VERTEX : ℚ)⟩
        (data.length * BYTES_PER_FLOAT) hb1 hfit
      obtain ⟨hd, hdq⟩ := Option.isSome_iff_exists.mp hb
      have hu : uploadVertices ctx state data =
          (ctx, ⟨state.buffer, state.capacityBytes,
            (data.length : ℚ) / (FLOATS_PER_VERTEX : ℚ)⟩,
            [GpuEvent.write hd (data.length * BYTES_PER_FLOAT)]) := by
        rw [uploadVertices]
        simp only [if_neg hd0]
        have hst : ({ state with
            vertexCount := (data.length : ℚ) / (FLOATS_PER_VERTEX : ℚ) } :
              DynamicVertexBuffer) =
            ⟨state.buffer, state.capacityBytes,
              (data.length : ℚ) / (FLOATS_PER_VERTEX : ℚ)⟩ := rfl
        rw [hst, hens]
        simp [hdq]
      rw [hu]
      refine ⟨fun _ => ⟨rfl, rfl, ?_⟩, fun hlt => absurd hfit (by omega), le_refl _,
        fun _ => hfit, ?_⟩
      · intro ev hev
        simp only [List.mem_singleton] at hev
        exact ⟨hd, data.length * BYTES_PER_FLOAT, hev⟩
      · intro hnone
        rw [hdq] at hnone
        cases hnone
    · -- capacity exceeded: release, reallocate, write
      have hlt : state.capacityBytes < data.length * BYTES_PER_FLOAT := by omega
      have hcond : ¬((⟨state.buffer, state.capacityBytes,
          (data.length : ℚ) / (FLOATS_PER_VERTEX : ℚ)⟩ :
            DynamicVertexBuffer).buffer.isSome ∧
          data.length * BYTES_PER_FLOAT ≤
            (⟨state.buffer, state.capacityBytes,
              (data.length : ℚ) / (FLOATS_PER_VERTEX : ℚ)⟩ :
                DynamicVertexBuffer).capacityBytes) := by
        intro hc
        exact hfit hc.2
      have hens := ensureVertexBuffer_grow ctx
        ⟨state.buffer, state.capacityBytes,
          (data.length : ℚ) / (FLOATS_PER_VERTEX : ℚ)⟩
        (data.length * BYTES_PER_FLOAT) hcond
      have hu : uploadVertices ctx state data =
          (⟨ctx.nextHandle + 1⟩,
            { buffer := some ctx.nextHandle,
              capacityBytes := max 4096 (max (data.length * BYTES_PER_FLOAT)
                (state.capacityBytes * 2)),
              vertexCount := (data.length : ℚ) / (FLOATS_PER_VERTEX : ℚ) },
            (match state.buffer with
              | some hd => [GpuEvent.release hd]
              | none => []) ++
              [GpuEvent.alloc ctx.nextHandle
                (max 4096 (max (data.length * BYTES_PER_FLOAT)
                  (state.capacityBytes * 2)))] ++
              [GpuEvent.write ctx.nextHandle (data.length * BYTES_PER_FLOAT)]) := by
        rw [uploadVertices]
        simp only [if_neg hd0]
        have hst : ({ state with
            vertexCount := (data.length : ℚ) / (FLOATS_PER_VERTEX : ℚ) } :
              DynamicVertexBuffer) =
            ⟨state.buffer, state.capacityBytes,
              (data.length : ℚ) / (FLOATS_PER_VERTEX : ℚ)⟩ := rfl
        rw [hst, hens]
      rw [hu]
      refine ⟨fun hfit2 => absurd hfit2 (by omega), fun _ => ⟨rfl, rfl, ?_, ?_⟩,
        ?_, fun _ => ?_, ?_⟩
      · intro hd hdq
        simp [hdq]
      · simp
      · have : state.capacityBytes ≤ state.capacityBytes * 2 := by omega
        simp only []
        exact le_trans this (le_trans (le_max_right _ _) (le_max_right _ _))
      · exact le_trans (le_max_left _ _) (le_max_right _ _)
      · intro hnone
        cases hnone

/-- Witness for C3: from the empty initial buffer state, uploading one
six-float vertex allocates the 4096-byte floor. -/
theorem uploadVertices_growth_witness :
    (uploadVertices ⟨0⟩ ⟨none, 0, 0⟩ [1, 2, 3, 4, 5, 6]).2.1.capacityBytes = 4096 := by
  have h := (uploadVertices_growth ⟨0⟩ ⟨none, 0, 0⟩ [1, 2, 3, 4, 5, 6]
    (fun _ => rfl)).2.1 (by simp [BYTES_PER_FLOAT])
  rw [h.1]
  simp [BYTES_PER_FLOAT]

/-- C10: an empty payload resets the vertex count to zero and changes
nothing else: same handle, same capacity, no allocator use, no release and
no queued write; the subsequent draw call for that buffer is skipped. -/
theorem uploadVertices_empty (ctx : GpuCtx) (state : DynamicVertexBuffer) :
    uploadVertices ctx state [] = (ctx, { state with vertexCount := 0 }, []) ∧
    drawCallIssued (uploadVertices ctx state []).2.1 = false := by
  refine ⟨uploadVertices_nil ctx state, ?_⟩
  rw [uploadVertices_nil]
  simp [drawCallIssued]

/-- Outcome of the environment's `requestAdapter()` call. -/
inductive AdapterOutcome where
  | rejects
  | resolvesNull
  | resolvesAdapter
  deriving DecidableEq, Repr

/-- Outcome of `adapter.requestDevice()`. -/
inductive DeviceOutcome where
  | rejects
  | resolves
  deriving DecidableEq, Repr

/-- Outcome of acquiring the drawing-surface context. -/
inductive ContextOutcome where
  | returnsNull
  | returnsContext
  deriving DecidableEq, Repr

/-- One initialization run's environment: what each fallible step does. -/
structure InitEnv where
  adapter : AdapterOutcome
  device : DeviceOutcome
  context : ContextOutcome
  configureThrows : Bool
  deriving DecidableEq, Repr

/-- Program counter of the `initialize` coroutine: suspended at its first
or second `await`, or finished. -/
inductive InitPc where
  | awaitingAdapter
  | awaitingDevice
  | done
  deriving DecidableEq, Repr

/-- The renderer's shared state as touched by `initialize` and teardown:
the disposed flag, the runtime slot, the log of `setRuntimeError` calls,
and the coroutine position. -/
structure RendererState where
  disposed : Bool
  runtime : Option Unit
  statusLog : List (Option String)
  pc : InitPc
  deriving DecidableEq, Repr

/-- The status string for a null adapter. -/
def adapterUnavailableMsg : String := "WebGPU adapter is unavailable."

/-- The status string of the catch-all failure handler. -/
def deviceInitFailedMsg : String := "Failed to initialize WebGPU device."

/-- The status string for a null drawing-surface context. -/
def surfaceUnavailableMsg : String := "Failed to acquire WebGPU context."

/-- The status string rendered when the host has no graphics capability. -/
def capabilityUnavailableMsg : String := "WebGPU is unavailable in this browser."

/-- One resume of the `initialize` coroutine, translated segment by segment
from the source: the body sits in a single try/catch whose handler logs the
device-initialization message when not disposed; a null adapter logs the
adapter message when not disposed; after the device resume a disposed flag
returns early; a null context logs the surface message; otherwise the
runtime is installed and, when not disposed, the error is cleared. -/
def resumeStep (env : InitEnv) (s : RendererState) : RendererState :=
  match s.pc with
  | InitPc.awaitingAdapter =>
    match env.adapter with
    | AdapterOutcome.rejects =>
      if s.disposed then { s with pc := InitPc.done }
      else { s with statusLog := s.statusLog ++ [some deviceInitFailedMsg],
                    pc := InitPc.done }
    | AdapterOutcome.resolvesNull =>
      if s.disposed then { s with pc := InitPc.done }
      else { s with statusLog := s.statusLog ++ [some adapterUnavailableMsg],
                    pc := InitPc.done }
    | AdapterOutcome.resolvesAdapter => { s with pc := InitPc.awaitingDevice }
  | InitPc.awaitingDevice =>
    match env.device with
    | DeviceOutcome.rejects =>
      if s.disposed then { s with pc := InitPc.done }
      else { s with statusLog := s.statusLog ++ [some deviceInitFailedMsg],
                    pc := InitPc.done }
    | DeviceOutcome.resolves =>
      if s.disposed then { s with pc := InitPc.done }
      else
        match env.context with
        | ContextOutcome.returnsNull =>
          if s.disposed then { s with pc := InitPc.done }
          else { s with statusLog := s.statusLog ++ [some surfaceUnavailableMsg],
                        pc := InitPc.done }
        | ContextOutcome.returnsContext =>
          if env.configureThrows then
            (if s.disposed then { s with pc := InitPc.done }
             else { s with statusLog := s.statusLog ++ [some deviceInitFailedMsg],
                           pc := InitPc.done })
          else
            let s1 := { s with runtime := some () }
            if s1.disposed then { s1 with pc := InitPc.done }
            else { s1 with statusLog := s1.statusLog ++ [none], pc := InitPc.done }
  | InitPc.done => s

/-- Teardown from the source cleanup: sets the disposed flag synchronously
and clears the runtime slot. -/
def disposeStep (s : RendererState) : RendererState :=
  { s with disposed := true, runtime := none }

/-- The state in which the mount effect leaves the coroutine: no runtime,
no status set, suspended at the adapter request. -/
def initialState : RendererState := ⟨false, none, [], InitPc.awaitingAdapter⟩

/-- A full undisturbed initialization: both awaits resumed, never disposed. -/
def runInit (env : InitEnv) : RendererState :=
  resumeStep env (resumeStep env initialState)

/-- The runtime error finally shown: the last `setRuntimeError` argument,
null when never called. -/
def finalStatus (s : RendererState) : Option String :=
  match s.statusLog.getLast? with
  | some v => v
  | none => none

/-- The mount effect from the source: with no `navigator.gpu`, `initialize`
is never invoked. -/
def mountEffect (hasGpu : Bool) (env : InitEnv) : Option RendererState :=
  if hasGpu then some (runInit env) else none

/-- The status line rendered to the host: the capability message when the
browser lacks the graphics backend, otherwise the runtime error. -/
def rendererStatusText (hasGpu : Bool) (runtimeError : Option String) :
    Option String :=
  if hasGpu = false then some capabilityUnavailableMsg else runtimeError

theorem resumeStep_disposed (env : InitEnv) (s : RendererState)
    (hd : s.disposed = true) :
    (resumeStep env s).runtime = s.runtime ∧
    (resumeStep env s).statusLog = s.statusLog ∧
    (resumeStep env s).disposed = true := by
  obtain ⟨ea, ed, ec, ecf⟩ := env
  cases hpc : s.pc <;> cases ea <;> cases ed <;> cases ec <;> cases ecf <;>
    simp [resumeStep, hpc, hd]

/-- C5: in every interleaving (teardown sets the disposed flag
synchronously; control transfers only at the two awaits), once the disposed
flag is set, any number of further initialization resumes leaves the
runtime slot and the status log untouched, and the flag stays set. -/
theorem disposedBlocksResumes (env : InitEnv) (s : RendererState)
    (n : Nat) (hd : s.disposed = true) :
    ((resumeStep env)^[n] s).runtime = s.runtime ∧
    ((resumeStep env)^[n] s).statusLog = s.statusLog ∧
    ((resumeStep env)^[n] s).disposed = true := by
  induction n with
  | zero => exact ⟨rfl, rfl, hd⟩
  | succ n ih =>
    rw [Function.iterate_succ_apply']
    obtain ⟨h1, h2, h3⟩ := ih
    obtain ⟨g1, g2, g3⟩ := resumeStep_disposed env ((resumeStep env)^[n] s) h3
    exact ⟨g1.trans h1, g2.trans h2, g3⟩

/-- Witness for C5: a disposed state suspended before the device resume,
driven through both remaining resumes of a fully successful environment. -/
theorem disposedBlocksResumes_witness :
    ((resumeStep ⟨AdapterOutcome.resolvesAdapter, DeviceOutcome.resolves,
        ContextOutcome.returnsContext, false⟩)^[2]
      (disposeStep ⟨false, none, [], InitPc.awaitingAdapter⟩)).runtime =
      (disposeStep ⟨false, none, [], InitPc.awaitingAdapter⟩).runtime ∧
    ((resumeStep ⟨AdapterOutcome.resolvesAdapter, DeviceOutcome.resolves,
        ContextOutcome.returnsContext, false⟩)^[2]
      (disposeStep ⟨false, none, [], InitPc.awaitingAdapter⟩)).statusLog =
      (disposeStep ⟨false, none, [], InitPc.awaitingAdapter⟩).statusLog ∧
    ((resumeStep ⟨AdapterOutcome.resolvesAdapter, DeviceOutcome.resolves,
        ContextOutcome.returnsContext, false⟩)^[2]
      (disposeStep ⟨false, none, [], InitPc.awaitingAdapter⟩)).disposed = true :=
  disposedBlocksResumes ⟨AdapterOutcome.resolvesAdapter,
    DeviceOutcome.resolves, ContextOutcome.returnsContext, false⟩
    (disposeStep ⟨false, none, [], InitPc.awaitingAdapter⟩) 2 rfl

/-- C4 counterexample: when surface configuration throws, the catch-all
handler reports the device-initialization message, not the
surface-unavailable message the claim requires for configuration
failures. -/
theorem initFailure_configure_counterexample :
    finalStatus (runInit ⟨AdapterOutcome.resolvesAdapter, DeviceOutcome.resolves,
        ContextOutcome.returnsContext, true⟩) = some deviceInitFailedMsg ∧
    finalStatus (runInit ⟨AdapterOutcome.resolvesAdapter, DeviceOutcome.resolves,
        ContextOutcome.returnsContext, true⟩) ≠ some surfaceUnavailableMsg := by
  refine ⟨rfl, ?_⟩
  intro h
  rw [show finalStatus (runInit ⟨AdapterOutcome.resolvesAdapter,
      DeviceOutcome.resolves, ContextOutcome.returnsContext, true⟩) =
      some deviceInitFailedMsg from rfl] at h
  simp [deviceInitFailedMsg, surfaceUnavailableMsg] at h

/-- C4 (amended): each initialization outcome surfaces only a status
string, with no retry once the coroutine is done; a missing graphics
capability reports its message without starting initialization; an adapter
request resolving to null reports the adapter message; a null surface
context reports the surface message; any rejected step or configuration
throw lands in the single catch-all and reports the device-initialization
message; full success clears the error and installs the runtime. -/
theorem initFailureTaxonomy (a : AdapterOutcome) (d : DeviceOutcome)
    (c : ContextOutcome) (cf : Bool) :
    mountEffect false ⟨a, d, c, cf⟩ = none ∧
    rendererStatusText false none = some capabilityUnavailableMsg ∧
    finalStatus (runInit ⟨AdapterOutcome.resolvesNull, d, c, cf⟩) =
      some adapterUnavailableMsg ∧
    (runInit ⟨AdapterOutcome.resolvesNull, d, c, cf⟩).runtime = none ∧
    finalStatus (runInit ⟨AdapterOutcome.rejects, d, c, cf⟩) =
      some deviceInitFailedMsg ∧
    finalStatus (runInit ⟨AdapterOutcome.resolvesAdapter,
        DeviceOutcome.rejects, c, cf⟩) = some deviceInitFailedMsg ∧
    finalStatus (runInit ⟨AdapterOutcome.resolvesAdapter,
        DeviceOutcome.resolves, ContextOutcome.returnsNull, cf⟩) =
      some surfaceUnavailableMsg ∧
    finalStatus (runInit ⟨AdapterOutcome.resolvesAdapter,
        DeviceOutcome.resolves, ContextOutcome.returnsContext, true⟩) =
      some deviceInitFailedMsg ∧
    finalStatus (runInit ⟨AdapterOutcome.resolvesAdapter,
        DeviceOutcome.resolves, ContextOutcome.returnsContext, false⟩) = none ∧
    (runInit ⟨AdapterOutcome.resolvesAdapter, DeviceOutcome.resolves,
        ContextOutcome.returnsContext, false⟩).runtime = some () ∧
    resumeStep ⟨a, d, c, cf⟩ (runInit ⟨a, d, c, cf⟩) = runInit ⟨a, d, c, cf⟩ := by
  cases a <;> cases d <;> cases c <;> cases cf <;>
    exact ⟨rfl, rfl, rfl, rfl, rfl, rfl, rfl, rfl, rfl, rfl, rfl⟩

/-- Witness for C6: the concrete horizontal pair. -/
theorem getEdgeCurve_matches_spec_witness :
    getEdgeCurve ⟨"a", ⟨0, 0⟩, 0, 0⟩ ⟨"b", ⟨100, 0⟩, 0, 0⟩ =
      ⟨0, 0, 35, 0, 65, 0, 100, 0⟩ :=
  getEdgeCurve_matches_spec.2

/-- Witness for C8: the two-node overlap example. -/
theorem getTopNodeAtPoint_spec_witness :
    getTopNodeAtPoint [⟨"A", ⟨0, 0⟩, 10, 10⟩, ⟨"B", ⟨2, 2⟩, 10, 10⟩] 5 5 =
      some ⟨"B", ⟨2, 2⟩, 10, 10⟩ :=
  (getTopNodeAtPoint_spec [⟨"A", ⟨0, 0⟩, 10, 10⟩, ⟨"B", ⟨2, 2⟩, 10, 10⟩] 5 5).2.2.2

/-- Witness for C9: the single-node example. -/
theorem getNodesBounds_spec_witness :
    getNodesBounds [⟨"n", ⟨0, 0⟩, 10, 20⟩] = some ⟨5, 10, 20, 10, 20, 0, 0, 10⟩ :=
  (getNodesBounds_spec [⟨"n", ⟨0, 0⟩, 10, 20⟩]).2.2

/-- Witness for C10: an empty upload on a buffer holding 56 vertices in a
4096-byte allocation. -/
theorem uploadVertices_empty_witness :
    uploadVertices ⟨5⟩ ⟨some 3, 4096, 56⟩ [] = (⟨5⟩, ⟨some 3, 4096, 0⟩, []) ∧
    drawCallIssued (uploadVertices ⟨5⟩ ⟨some 3, 4096, 56⟩ []).2.1 = false :=
  uploadVertices_empty ⟨5⟩ ⟨some 3, 4096, 56⟩

end GraphDraft
